import Mathlib

/-!
Verification development for the jobclaw ingestion pipeline.

This file gives a shallow embedding, in Lean 4, of the parts of the
repository relevant to its specification: the normalized job record and
its deduplication key (scripts/ingestion/ats_adapters.py), the role
keyword filter (scripts/ingestion/role_filter.py), the US location
filter (scripts/ingestion/us_filter.py), the recency window filter, the
dedup engine and the cycle orchestrator
(scripts/ingestion/parallel_ingestor.py), the Greenhouse and Lever
adapters (scripts/ingestion/ats_adapters.py), and the file write
discipline of save_jobs_db versus the atomic write helper of
scripts/utils/storage_manager.py.

Machine integers are modelled as Nat/Int with explicit reduction modulo
2^32 where the SHA-256 hash needs it.  Python exceptions are modelled
with Except; functions that swallow exceptions are total Lean functions.
Wall-clock time is passed explicitly as an integer Unix timestamp.
-/

namespace JobClaw

/-! ## Python string helpers

pyLower models str.lower and pyStrip models str.strip for the ASCII
strings manipulated by the pipeline. -/

/-- Model of the Python str.lower method (ASCII case folding). -/
def pyLower (s : String) : String := String.mk (s.toList.map Char.toLower)

/-- Model of the Python str.strip method: drop leading and trailing
whitespace. -/
def pyStrip (s : String) : String :=
  String.mk (((s.toList.dropWhile Char.isWhitespace).reverse.dropWhile
    Char.isWhitespace).reverse)

/-! ## SHA-256

The dedup key of a job is the first 16 hex characters of the SHA-256
digest of a normalization of its fields
(NormalizedJob.dedup_key, scripts/ingestion/ats_adapters.py lines
39-43).  The hash is implemented here over Nat with explicit reduction
modulo 2^32, so that concrete keys can be evaluated by the kernel. -/

/-- Two to the power 32, the modulus of 32-bit words. -/
def M32 : Nat := 4294967296

/-- Right rotation of a 32-bit word. -/
def rotr (n x : Nat) : Nat := ((x >>> n) ||| (x <<< (32 - n))) % M32

/-- Logical right shift. -/
def shr (n x : Nat) : Nat := x >>> n

/-- Round constants of SHA-256, written in decimal. -/
def sha256K : List Nat :=
  [1116352408, 1899447441, 3049323471, 3921009573, 961987163, 1508970993,
   2453635748, 2870763221, 3624381080, 310598401, 607225278, 1426881987,
   1925078388, 2162078206, 2614888103, 3248222580, 3835390401, 4022224774,
   264347078, 604807628, 770255983, 1249150122, 1555081692, 1996064986,
   2554220882, 2821834349, 2952996808, 3210313671, 3336571891, 3584528711,
   113926993, 338241895, 666307205, 773529912, 1294757372, 1396182291,
   1695183700, 1986661051, 2177026350, 2456956037, 2730485921, 2820302411,
   3259730800, 3345764771, 3516065817, 3600352804, 4094571909, 275423344,
   430227734, 506948616, 659060556, 883997877, 958139571, 1322822218,
   1537002063, 1747873779, 1955562222, 2024104815, 2227730452, 2361852424,
   2428436474, 2756734187, 3204031479, 3329325298]

/-- Initial hash state of SHA-256, written in decimal. -/
def sha256H0 : List Nat :=
  [1779033703, 3144134277, 1013904242, 2773480762, 1359893119, 2600822924,
   528734635, 1541459225]

/-- Big sigma 0 of SHA-256. -/
def bigS0 (x : Nat) : Nat := (rotr 2 x) ^^^ (rotr 13 x) ^^^ (rotr 22 x)

/-- Big sigma 1 of SHA-256. -/
def bigS1 (x : Nat) : Nat := (rotr 6 x) ^^^ (rotr 11 x) ^^^ (rotr 25 x)

/-- Small sigma 0 of SHA-256. -/
def smallS0 (x : Nat) : Nat := (rotr 7 x) ^^^ (rotr 18 x) ^^^ (shr 3 x)

/-- Small sigma 1 of SHA-256. -/
def smallS1 (x : Nat) : Nat := (rotr 17 x) ^^^ (rotr 19 x) ^^^ (shr 10 x)

/-- Choice function of SHA-256. -/
def chFun (x y z : Nat) : Nat := (x &&& y) ^^^ ((x ^^^ 4294967295) &&& z)

/-- Majority function of SHA-256. -/
def majFun (x y z : Nat) : Nat := (x &&& y) ^^^ (x &&& z) ^^^ (y &&& z)

/-- Pad a byte list as SHA-256 requires: append 0x80, zeros, and the
message bit length as eight big-endian bytes, to a multiple of 64. -/
def sha256Pad (msg : List Nat) : List Nat :=
  let len := msg.length
  let bitLen := len * 8
  let padZeros := (64 - ((len + 9) % 64)) % 64
  msg ++ [128] ++ List.replicate padZeros 0 ++
    [(bitLen >>> 56) % 256, (bitLen >>> 48) % 256, (bitLen >>> 40) % 256,
     (bitLen >>> 32) % 256, (bitLen >>> 24) % 256, (bitLen >>> 16) % 256,
     (bitLen >>> 8) % 256, bitLen % 256]

/-- Group bytes into 32-bit big-endian words. -/
def toWords : List Nat → List Nat
  | a :: b :: c :: d :: rest => (a * 16777216 + b * 65536 + c * 256 + d) :: toWords rest
  | _ => []

/-- Extend 16 schedule words by the next i words. -/
def schedule (w : List Nat) : Nat → List Nat
  | 0 => w
  | j + 1 =>
    let w' := schedule w j
    let t := 16 + j
    let a := w'.getD (t - 2) 0
    let b := w'.getD (t - 7) 0
    let c := w'.getD (t - 15) 0
    let d := w'.getD (t - 16) 0
    w' ++ [(smallS1 a + b + smallS0 c + d) % M32]

/-- One round of the SHA-256 compression function; kw carries the round
constant and the schedule word. -/
def compressStep (st : List Nat) (kw : Nat × Nat) : List Nat :=
  match st with
  | [a, b, c, d, e, f, g, h] =>
    let t1 := (h + bigS1 e + chFun e f g + kw.1 + kw.2) % M32
    let t2 := (bigS0 a + majFun a b c) % M32
    [(t1 + t2) % M32, a, b, c, (d + t1) % M32, e, f, g]
  | st => st

/-- Compress one 16-word block into the running hash state. -/
def compressBlock (h : List Nat) (block : List Nat) : List Nat :=
  let w := schedule block 48
  let st := (sha256K.zip w).foldl (fun s p => compressStep s p) h
  (h.zip st).map (fun p => (p.1 + p.2) % M32)

/-- Consume the padded word stream one 16-word block at a time. -/
def compressAll (h : List Nat) : List Nat → List Nat
  | w0 :: w1 :: w2 :: w3 :: w4 :: w5 :: w6 :: w7 ::
    w8 :: w9 :: w10 :: w11 :: w12 :: w13 :: w14 :: w15 :: rest =>
      compressAll (compressBlock h
        [w0, w1, w2, w3, w4, w5, w6, w7, w8, w9, w10, w11, w12, w13, w14, w15]) rest
  | _ => h

/-- SHA-256 digest of a byte list, as eight 32-bit words. -/
def sha256 (msg : List Nat) : List Nat := compressAll sha256H0 (toWords (sha256Pad msg))

/-- Lower-case hex digit for a value below 16. -/
def hexDigit (n : Nat) : Char :=
  if n < 10 then Char.ofNat (48 + n) else Char.ofNat (87 + n)

/-- Eight hex characters of one 32-bit word. -/
def wordHex (w : Nat) : List Char :=
  [hexDigit ((w >>> 28) % 16), hexDigit ((w >>> 24) % 16), hexDigit ((w >>> 20) % 16),
   hexDigit ((w >>> 16) % 16), hexDigit ((w >>> 12) % 16), hexDigit ((w >>> 8) % 16),
   hexDigit ((w >>> 4) % 16), hexDigit (w % 16)]

/-- UTF-8 encoding of a string, modelling the Python str.encode method. -/
def utf8Bytes (s : String) : List Nat :=
  s.toList.flatMap fun c =>
    let n := c.toNat
    if n < 128 then [n]
    else if n < 2048 then [192 + n / 64, 128 + n % 64]
    else if n < 65536 then [224 + n / 4096, 128 + (n / 64) % 64, 128 + n % 64]
    else [240 + n / 262144, 128 + (n / 4096) % 64, 128 + (n / 64) % 64, 128 + n % 64]

/-- First 16 hex characters of the SHA-256 digest of a string, modelling
hashlib.sha256(raw.encode()).hexdigest()[:16]. -/
def sha256hex16 (s : String) : String :=
  String.mk (((sha256 (utf8Bytes s)).flatMap wordHex).take 16)

/-! ## Date strings

The date_posted field of a job is an arbitrary string which
is_within_window (scripts/ingestion/parallel_ingestor.py lines 116-164)
classifies by a cascade of parsers: the ISO strptime formats, then
float, then a month/year test, then a day-count regex, then a default.
The cascade makes the classes mutually exclusive, so a date string is
embedded by its parse class: which branch of the cascade accepts it and
the numeric value that branch extracts. -/

/-- Parse class of a date_posted string under the cascade of
is_within_window.  iso t is a string one of the five strptime formats
parses to the UTC Unix time t; unix x is a non-ISO string float() parses
to x; monthYear is a remaining string containing month or year; daysAgo
n is a remaining string the day-count regex matches with number n;
other is everything else (for example, 3 hours ago). -/
inductive DateStr
  | empty
  | iso (t : Int)
  | unix (x : Int)
  | monthYear
  | daysAgo (n : Nat)
  | other
deriving DecidableEq

/-- Range of Unix times datetime.fromtimestamp accepts (year 1 to year
9999); outside it the call raises and the source falls back. -/
def fromtimestampOk (ts : Int) : Bool :=
  decide (-62135596800 ≤ ts ∧ ts ≤ 253402300799)

/-- Model of is_within_window (parallel_ingestor.py lines 116-164).
Empty strings return True; ISO dates and in-range Unix timestamps
(milliseconds when above 1e12) are compared inclusively against the
cutoff now minus window_hours; month/year phrases are within the window
exactly when it is at least 720 hours; N days ago phrases compare
N * 24 against window_hours; everything else returns True. -/
def is_within_window (date_str : DateStr) (now : Int) (window_hours : Int) : Bool :=
  let cutoff := now - window_hours * 3600
  match date_str with
  | .empty => true
  | .iso t => decide (t ≥ cutoff)
  | .unix x =>
    let ts := if x > 1000000000000 then x / 1000 else x
    if fromtimestampOk ts then decide (ts ≥ cutoff) else true
  | .monthYear => decide (window_hours ≥ 720)
  | .daysAgo n => decide ((n : Int) * 24 ≤ window_hours)
  | .other => true

/-! ## Normalized job records and the dedup key -/

/-- Common job format across all ATS platforms
(scripts/ingestion/ats_adapters.py lines 23-43).  The date_posted field
is carried by parse class (see DateStr). -/
structure NormalizedJob where
  title : String
  company : String
  location : String
  url : String
  date_posted : DateStr
  source_ats : String
  job_id : String
  first_seen : String := ""
  keywords_matched : List String := []
deriving DecidableEq

/-- Normalization the dedup key hashes: the concatenation
title|company|location, lower-cased and stripped as a whole
(ats_adapters.py line 42). -/
def NormalizedJob.dedupRaw (j : NormalizedJob) : String :=
  pyStrip (pyLower (j.title ++ "|" ++ j.company ++ "|" ++ j.location))

/-- Model of the NormalizedJob.dedup_key property (ats_adapters.py
lines 39-43): first 16 hex characters of the SHA-256 of dedupRaw. -/
def NormalizedJob.dedup_key (j : NormalizedJob) : String :=
  sha256hex16 j.dedupRaw

/-! ## Dedup engine -/

/-- Loop body of dedup_jobs (parallel_ingestor.py lines 97-109): keep a
job when its key is in neither the known set nor the seen set, adding
kept keys to the seen set. -/
def dedupGo (known_keys : List String) : List NormalizedJob → List String → List NormalizedJob
  | [], _ => []
  | job :: rest, seen =>
    let key := job.dedup_key
    if known_keys.contains key || seen.contains key then dedupGo known_keys rest seen
    else job :: dedupGo known_keys rest (key :: seen)

/-- Model of dedup_jobs (parallel_ingestor.py lines 97-109). -/
def dedup_jobs (new_jobs : List NormalizedJob) (known_keys : List String) : List NormalizedJob :=
  dedupGo known_keys new_jobs []

/-! ## Role filter (scripts/ingestion/role_filter.py) -/

/-- The ROLE_KEYWORDS table of role_filter.py lines 15-188: pairs of a
lower-case keyword and its category. -/
def ROLE_KEYWORDS : List (String × String) :=
  [("machine learning engineer", "AI/ML"),
   ("ml engineer", "AI/ML"),
   ("ai engineer", "AI/ML"),
   ("generative ai engineer", "AI/ML"),
   ("applied machine learning engineer", "AI/ML"),
   ("machine learning scientist", "AI/ML"),
   ("ml scientist", "AI/ML"),
   ("research scientist", "AI/ML"),
   ("ai research assistant", "AI/ML"),
   ("llm engineer", "AI/ML"),
   ("nlp engineer", "AI/ML"),
   ("computer vision engineer", "AI/ML"),
   ("deep learning engineer", "AI/ML"),
   ("deep learning", "AI/ML"),
   ("ml compiler engineer", "AI/ML"),
   ("mlops engineer", "AI/ML"),
   ("ml ops", "AI/ML"),
   ("ai/ml platform engineer", "AI/ML"),
   ("applied scientist", "AI/ML"),
   ("ai scientist", "AI/ML"),
   ("machine learning", "AI/ML"),
   ("prompt engineer", "AI/ML"),
   ("rag engineer", "AI/ML"),
   ("ai architect", "AI/ML"),
   ("ml systems engineer", "AI/ML"),
   ("ai research engineer", "AI/ML"),
   ("foundation model engineer", "AI/ML"),
   ("ai perception engineer", "AI/ML"),
   ("robotics ml engineer", "AI/ML"),
   ("robotics engineer", "AI/ML"),
   ("llmops engineer", "AI/ML"),
   ("vector database engineer", "AI/ML"),
   ("embeddings engineer", "AI/ML"),
   ("ai ethics researcher", "AI/ML"),
   ("ai automation engineer", "AI/ML"),
   ("data scientist", "Data Science"),
   ("associate data scientist", "Data Science"),
   ("junior data scientist", "Data Science"),
   ("quantitative data scientist", "Data Science"),
   ("research data scientist", "Data Science"),
   ("applied data scientist", "Data Science"),
   ("data science analyst", "Data Science"),
   ("business intelligence data scientist", "Data Science"),
   ("optimization data scientist", "Data Science"),
   ("clinical data scientist", "Data Science"),
   ("geospatial data scientist", "Data Science"),
   ("decision scientist", "Data Science"),
   ("analytics scientist", "Data Science"),
   ("predictive modeler", "Data Science"),
   ("statistical analyst", "Data Science"),
   ("data engineer", "Data Engineering"),
   ("junior data engineer", "Data Engineering"),
   ("associate data engineer", "Data Engineering"),
   ("big data engineer", "Data Engineering"),
   ("cloud data engineer", "Data Engineering"),
   ("data platform engineer", "Data Engineering"),
   ("analytics engineer", "Data Engineering"),
   ("etl developer", "Data Engineering"),
   ("data pipeline engineer", "Data Engineering"),
   ("data warehouse engineer", "Data Engineering"),
   ("database engineer", "Data Engineering"),
   ("data infrastructure engineer", "Data Engineering"),
   ("big data developer", "Data Engineering"),
   ("bi developer", "Data Engineering"),
   ("data integration engineer", "Data Engineering"),
   ("hadoop developer", "Data Engineering"),
   ("search engineer", "Data Engineering"),
   ("solutions architect", "Data Engineering"),
   ("data architect", "Data Engineering"),
   ("database developer", "Data Engineering"),
   ("azure data engineer", "Data Engineering"),
   ("aws data engineer", "Data Engineering"),
   ("gcp data engineer", "Data Engineering"),
   ("data analyst", "Data Analyst"),
   ("junior data analyst", "Data Analyst"),
   ("associate data analyst", "Data Analyst"),
   ("entry level data analyst", "Data Analyst"),
   ("business data analyst", "Data Analyst"),
   ("operations data analyst", "Data Analyst"),
   ("marketing data analyst", "Data Analyst"),
   ("business intelligence analyst", "Data Analyst"),
   ("analytics analyst", "Data Analyst"),
   ("reporting analyst", "Data Analyst"),
   ("data quality analyst", "Data Analyst"),
   ("product data analyst", "Data Analyst"),
   ("financial data analyst", "Data Analyst"),
   ("fraud data analyst", "Data Analyst"),
   ("clinical data analyst", "Data Analyst"),
   ("gis analyst", "Data Analyst"),
   ("people analytics analyst", "Data Analyst"),
   ("sales analytics analyst", "Data Analyst"),
   ("customer analytics analyst", "Data Analyst"),
   ("quantitative analyst", "Data Analyst"),
   ("data visualization analyst", "Data Analyst"),
   ("business analyst", "Data Analyst"),
   ("software engineer", "SWE"),
   ("software developer", "SWE"),
   ("junior software engineer", "SWE"),
   ("associate software engineer", "SWE"),
   ("entry level software engineer", "SWE"),
   ("new grad software engineer", "SWE"),
   ("graduate software engineer", "SWE"),
   ("frontend engineer", "SWE"),
   ("backend engineer", "SWE"),
   ("full stack engineer", "SWE"),
   ("fullstack engineer", "SWE"),
   ("full stack developer", "SWE"),
   ("web developer", "SWE"),
   ("mobile engineer", "SWE"),
   ("ios engineer", "SWE"),
   ("android engineer", "SWE"),
   ("cloud engineer", "SWE"),
   ("devops engineer", "SWE"),
   ("site reliability engineer", "SWE"),
   ("sre", "SWE"),
   ("platform engineer", "SWE"),
   ("infrastructure engineer", "SWE"),
   ("systems engineer", "SWE"),
   ("network engineer", "SWE"),
   ("automation engineer", "SWE"),
   ("solutions engineer", "SWE"),
   ("application engineer", "SWE"),
   ("embedded software engineer", "SWE"),
   ("database administrator", "SWE"),
   ("qa engineer", "SWE"),
   ("quality assurance analyst", "SWE"),
   ("test engineer", "SWE"),
   ("sdet", "SWE"),
   ("security engineer", "SWE"),
   ("cybersecurity analyst", "SWE"),
   ("new college grad", "New Grad"),
   ("rotational program", "New Grad"),
   ("technology development program", "New Grad"),
   ("engineering development program", "New Grad"),
   ("leadership development program", "New Grad"),
   ("new grad 2026", "New Grad"),
   ("new grad 2025", "New Grad"),
   ("university graduate", "New Grad"),
   ("recent graduate program", "New Grad"),
   ("associate data professional", "New Grad"),
   ("technology analyst", "New Grad"),
   ("engineering analyst", "New Grad"),
   ("associate product manager", "Product"),
   ("technical product manager", "Product"),
   ("research associate", "Research"),
   ("research engineer", "Research"),
   ("computational biologist", "Research")]

/-- Boolean test that needle occurs contiguously inside haystack. -/
def isInfixB (needle : List Char) : List Char → Bool
  | [] => needle.isEmpty
  | h :: t => needle.isPrefixOf (h :: t) || isInfixB needle t

/-- Case-insensitive substring test, modelling
re.compile(re.escape(kw), re.IGNORECASE).search(title) for the ASCII
keywords of the table: both sides are lower-cased and kw is looked for
as an infix of title. -/
def kwMatches (kw title : String) : Bool :=
  isInfixB (kw.toList.map Char.toLower) (title.toList.map Char.toLower)

/-- Model of matches_target_role (role_filter.py lines 197-213): the
distinct categories whose keyword occurs case-insensitively in the
title; empty input gives the empty list.  The source collects the
categories into a Python set; here the list of matches is deduplicated,
which agrees with the set up to order. -/
def matches_target_role (title : String) : List String :=
  if title = "" then []
  else ((ROLE_KEYWORDS.filter (fun p => kwMatches p.1 title)).map Prod.snd).dedup

/-! ## US location filter (scripts/ingestion/us_filter.py) -/

/-- The two-letter state and territory abbreviations of us_filter.py
lines 24-30. -/
def STATE_CODES : List String :=
  ["al", "ak", "az", "ar", "ca", "co", "ct", "de", "fl", "ga",
   "hi", "id", "il", "in", "ia", "ks", "ky", "la", "me", "md",
   "ma", "mi", "mn", "ms", "mo", "mt", "ne", "nv", "nh", "nj",
   "nm", "ny", "nc", "nd", "oh", "ok", "or", "pa", "ri", "sc",
   "sd", "tn", "tx", "ut", "vt", "va", "wa", "wv", "wi", "wy", "dc"]

/-- Word character of the regex word boundary: letters, digits,
underscore (ASCII). -/
def isWordChar (c : Char) : Bool := c.isAlphanum || c == '_'

/-- Maximal runs of word characters of a character list; acc holds the
current run reversed. -/
def wordRuns : List Char → List Char → List (List Char)
  | [], acc => if acc.isEmpty then [] else [acc.reverse]
  | c :: rest, acc =>
    if isWordChar c then wordRuns rest (c :: acc)
    else if acc.isEmpty then wordRuns rest [] else acc.reverse :: wordRuns rest []

/-- Tokens produced by re.findall of two boundary-delimited letters:
the maximal word-character runs that are exactly two ASCII letters. -/
def twoLetterTokens (location : String) : List String :=
  ((wordRuns location.toList []).filter
    (fun r => r.length == 2 && r.all Char.isAlpha)).map String.mk

/-- Substring test modelling the Python in operator on strings. -/
def strContains (needle haystack : String) : Bool :=
  isInfixB needle.toList haystack.toList

/-- Model of is_us_location (us_filter.py lines 33-69).  The include
and exclude pattern lists come from config/us_locations.json, already
lower-cased at load; they are passed here as parameters. -/
def is_us_location (include_patterns exclude_patterns : List String)
    (location : String) : Bool :=
  if location = "" then true
  else
    let loc_lower := pyStrip (pyLower location)
    if loc_lower ∈ ["", "unknown", "n/a", "various", "multiple"] then true
    else if exclude_patterns.any (fun exc => strContains exc loc_lower) then false
    else if include_patterns.any
        (fun inc => inc.length > 2 && strContains inc loc_lower) then true
    else if (twoLetterTokens location).any
        (fun w => STATE_CODES.contains (pyLower w)) then true
    else true

/-! ## ATS adapters (scripts/ingestion/ats_adapters.py)

Each adapter performs one HTTP request inside a try block whose
catch-all returns the empty list.  The transport outcome of the request
is made explicit: the request may raise (network failure or timeout),
or return a status code together with a body that either parses to the
expected shape or raises on access. -/

/-- Outcome of one HTTP request: an exception while connecting or
reading (network failure), a timeout, or a response carrying a status
code and a body whose JSON decoding either succeeds with shape a or
raises. -/
inductive Transport (a : Type)
  | netFail (msg : String)
  | timeout
  | ok (status : Nat) (body : Except String a)

/-- Fields the Greenhouse adapter extracts from one job object of the
boards API response (ats_adapters.py lines 81-94), after the dict
probing with defaults. -/
structure GreenhouseRawJob where
  title : String := ""
  location_name : String := "Unknown"
  id : String := ""
  date : DateStr := .empty
deriving DecidableEq

/-- Normalization of one Greenhouse job (ats_adapters.py lines 86-94). -/
def GreenhouseAdapter.normalize (slug company : String) (j : GreenhouseRawJob) :
    NormalizedJob :=
  { title := j.title, company := company, location := j.location_name,
    url := "https://boards.greenhouse.io/" ++ slug ++ "/jobs/" ++ j.id,
    date_posted := j.date, source_ats := "greenhouse", job_id := j.id }

/-- Model of GreenhouseAdapter.fetch (ats_adapters.py lines 70-97).
A non-200 status returns the empty list; the catch-all except clause
turns every raised exception (network failure, timeout, body decode
failure) into the empty list as well, so the function is total and
never surfaces an error. -/
def GreenhouseAdapter.fetch (slug company : String)
    (t : Transport (List GreenhouseRawJob)) : List NormalizedJob :=
  match t with
  | .netFail _ => []
  | .timeout => []
  | .ok status body =>
    if status ≠ 200 then []
    else
      match body with
      | .error _ => []
      | .ok data => data.map (GreenhouseAdapter.normalize slug company)

/-- Fields the Lever adapter extracts from one posting of the postings
API response (ats_adapters.py lines 122-143), after the dict probing
with defaults; createdAt is the millisecond timestamp, 0 when absent. -/
structure LeverRawJob where
  text : String := ""
  createdAt : Int := 0
  location : String := "Unknown"
  hostedUrl : String := ""
  id : String := ""
deriving DecidableEq

/-- Model of the module helper that checks a Unix timestamp against a
fixed 24 hour cutoff (ats_adapters.py lines 46-58, named with a leading
underscore in the source).  A falsy (zero) timestamp is included;
values above 1e12 are taken as milliseconds; an out-of-range value
makes fromtimestamp raise, which the except clause turns into True. -/
def is_within_24h (timestamp : Int) (now : Int) : Bool :=
  if timestamp = 0 then true
  else
    let ts := if timestamp > 1000000000000 then timestamp / 1000 else timestamp
    if fromtimestampOk ts then decide (ts ≥ now - 86400) else true

/-- Normalization of one Lever posting (ats_adapters.py lines 133-143):
date_posted is the ISO rendering of createdAt / 1000 when createdAt is
nonzero, empty otherwise. -/
def LeverAdapter.normalize (company : String) (j : LeverRawJob) : NormalizedJob :=
  { title := j.text, company := company, location := j.location,
    url := j.hostedUrl,
    date_posted := if j.createdAt ≠ 0 then .iso (j.createdAt / 1000) else .empty,
    source_ats := "lever", job_id := j.id }

/-- Model of LeverAdapter.fetch (ats_adapters.py lines 109-146).  As
with Greenhouse, every raised exception and every non-200 status yields
the empty list; additionally each posting is dropped unless its
createdAt passes the fixed 24 hour check, independently of any window
argument. -/
def LeverAdapter.fetch (company : String) (now : Int)
    (t : Transport (List LeverRawJob)) : List NormalizedJob :=
  match t with
  | .netFail _ => []
  | .timeout => []
  | .ok status body =>
    if status ≠ 200 then []
    else
      match body with
      | .error _ => []
      | .ok data =>
        data.filterMap fun j =>
          if is_within_24h j.createdAt now then some (LeverAdapter.normalize company j)
          else none

/-- Upstream response offered to fetch_company_jobs, tagged by the
platform family whose wire shape it carries.  The platforms not needed
by any claim are collapsed into otherPlatform carrying their normalized
output. -/
inductive UpstreamResponse
  | greenhouse (t : Transport (List GreenhouseRawJob))
  | lever (t : Transport (List LeverRawJob))
  | otherPlatform (jobs : List NormalizedJob)

/-- Model of fetch_company_jobs (ats_adapters.py lines 382-392): look
the ats name up in the adapter registry and delegate; an unknown name
or a response of the wrong platform shape yields the empty list.  Like
every adapter, this function is total: no exception escapes it. -/
def fetch_company_jobs (now : Int) (company ats slug : String)
    (resp : UpstreamResponse) : List NormalizedJob :=
  match ats, resp with
  | "greenhouse", .greenhouse t => GreenhouseAdapter.fetch slug company t
  | "lever", .lever t => LeverAdapter.fetch company now t
  | "ashby", .otherPlatform jobs => jobs
  | "smartrecruiters", .otherPlatform jobs => jobs
  | "bamboohr", .otherPlatform jobs => jobs
  | "workday", .otherPlatform jobs => jobs
  | _, _ => []

/-! ## Retry loop (parallel_ingestor.py lines 171-195) -/

/-- MAX_RETRIES of parallel_ingestor.py line 46. -/
def MAX_RETRIES : Nat := 2

/-- RETRY_DELAY of parallel_ingestor.py line 47, in seconds. -/
def RETRY_DELAY : Nat := 2

/-- Loop of the retry helper (parallel_ingestor.py lines 185-193,
named with a leading underscore in the source).  The fetch argument
gives the outcome of attempt number i: ok jobs when fetch_company_jobs
returns, error e when it raises.  remaining counts the attempts left
out of MAX_RETRIES + 1.  The result pairs (jobs, error) with the list
of sleep durations performed between attempts. -/
def fetchRetryGo (fetch : Nat → Except String (List NormalizedJob)) :
    Nat → Nat → (List NormalizedJob × Option String) × List Nat
  | _, 0 => (([], some "Max retries exceeded"), [])
  | attempt, r + 1 =>
    match fetch attempt with
    | .ok jobs => ((jobs, none), [])
    | .error e =>
      if r = 0 then (([], some e), [])
      else
        let rest := fetchRetryGo fetch (attempt + 1) r
        (rest.1, RETRY_DELAY * (attempt + 1) :: rest.2)

/-- Model of the retry helper entry (parallel_ingestor.py lines
171-195): run the loop from attempt 0 with MAX_RETRIES + 1 attempts. -/
def fetch_with_retry (fetch : Nat → Except String (List NormalizedJob)) :
    (List NormalizedJob × Option String) × List Nat :=
  fetchRetryGo fetch 0 (MAX_RETRIES + 1)

/-! ## Job database and cycle orchestrator (parallel_ingestor.py) -/

/-- One run history entry (parallel_ingestor.py lines 315-323); the
wall-clock duration field is not modelled. -/
structure RunEntry where
  timestamp : String
  fetched : Nat
  filtered : Nat
  newCount : Nat
  succeeded : Nat
  failed : Nat
deriving DecidableEq

/-- The jobs database (parallel_ingestor.py lines 82-94): a mapping
from dedup key to stored job, the run history, and the last update
stamp.  The mapping is modelled as an association list in insertion
order. -/
structure JobsDB where
  jobs : List (String × NormalizedJob) := []
  run_history : List RunEntry := []
  last_updated : Option String := none
deriving DecidableEq

/-- Python dict assignment on an association list: overwrite the entry
when the key is present, append it otherwise. -/
def setKey (m : List (String × NormalizedJob)) (k : String) (v : NormalizedJob) :
    List (String × NormalizedJob) :=
  if m.any (fun p => p.1 == k) then m.map (fun p => if p.1 == k then (k, v) else p)
  else m ++ [(k, v)]

/-- Python dict lookup on an association list. -/
def lookupKey (m : List (String × NormalizedJob)) (k : String) :
    Option (String × NormalizedJob) :=
  m.find? (fun p => p.1 == k)

/-- Store step of run_cycle (parallel_ingestor.py lines 309-312): stamp
first_seen on every accepted job and assign it into the database under
its dedup key.  Returns the updated database and the stamped jobs (the
source mutates the job objects, which also appear in the cycle
result). -/
def storeJobs (db : JobsDB) (new_jobs : List NormalizedJob) (ts : String) :
    JobsDB × List NormalizedJob :=
  let stamped := new_jobs.map (fun j => { j with first_seen := ts })
  let jobs' := stamped.foldl (fun m j => setKey m j.dedup_key j) db.jobs
  ({ db with jobs := jobs' }, stamped)

/-- Result of one fetch task as seen by the gather loop of run_cycle
(lines 244-256): error e when the task itself raised, otherwise the
(company name, jobs, per-source error) triple of the retry helper. -/
abbrev RegistryResult := Except String (String × List NormalizedJob × Option String)

/-- Accumulator of the gather loop of run_cycle (lines 232-256). -/
structure FetchAgg where
  all_jobs : List NormalizedJob := []
  errors : List String := []
  succeeded : Nat := 0
  failed : Nat := 0
deriving DecidableEq

/-- Gather loop of run_cycle (lines 244-256): a raised task or a task
carrying a per-source error counts as failed and appends to the error
list; otherwise the task counts as succeeded and its jobs extend the
candidate list. -/
def processResults (results : List RegistryResult) : FetchAgg :=
  results.foldl
    (fun acc r =>
      match r with
      | .error e =>
        { acc with errors := acc.errors ++ [e], failed := acc.failed + 1 }
      | .ok (name, _, some err) =>
        { acc with errors := acc.errors ++ [name ++ ": " ++ err],
                   failed := acc.failed + 1 }
      | .ok (_, jobs, none) =>
        { acc with all_jobs := acc.all_jobs ++ jobs,
                   succeeded := acc.succeeded + 1 })
    {}

/-- Role filter stage of run_cycle (lines 283-289): keep a job exactly
when matches_target_role of its title is non-empty, recording the
matched categories on the job. -/
def roleStage (jobs : List NormalizedJob) : List NormalizedJob :=
  jobs.filterMap fun job =>
    let matched := matches_target_role job.title
    if matched.isEmpty then none else some { job with keywords_matched := matched }

/-- US filter stage of run_cycle (line 294). -/
def usStage (include_patterns exclude_patterns : List String)
    (jobs : List NormalizedJob) : List NormalizedJob :=
  jobs.filter fun j => is_us_location include_patterns exclude_patterns j.location

/-- Recency filter stage of run_cycle (line 298). -/
def recencyStage (now window_hours : Int) (jobs : List NormalizedJob) :
    List NormalizedJob :=
  jobs.filter fun j => is_within_window j.date_posted now window_hours

/-- Structured result of one cycle (parallel_ingestor.py lines
337-346); the wall-clock duration field is not modelled. -/
structure CycleResult where
  new_jobs : List NormalizedJob
  total_fetched : Nat
  total_filtered : Nat
  total_new : Nat
  companies_succeeded : Nat
  companies_failed : Nat
  errors : List String
deriving DecidableEq

/-- Model of run_cycle (parallel_ingestor.py lines 198-346).  The
effectful inputs are passed explicitly: results is the list of fetch
task outcomes, one per registry entry (so an empty registry is an empty
list); board and agg are the (jobs, errors) pairs returned by
fetch_all_job_boards and fetch_all_aggregators; include_patterns and
exclude_patterns configure the US filter; db is the loaded jobs
database; now is the current Unix time and ts the stored timestamp
string.  Returns the cycle result and the database written back by
save_jobs_db. -/
def run_cycle (results : List RegistryResult)
    (board agg : List NormalizedJob × List String)
    (include_patterns exclude_patterns : List String)
    (db : JobsDB) (now : Int) (window_hours : Int) (ts : String) :
    CycleResult × JobsDB :=
  if results.isEmpty then
    ({ new_jobs := [], total_fetched := 0, total_filtered := 0, total_new := 0,
       companies_succeeded := 0, companies_failed := 0,
       errors := ["Empty registry"] }, db)
  else
    let agg0 := processResults results
    let all_jobs := agg0.all_jobs ++ board.1 ++ agg.1
    let errors := agg0.errors ++ board.2 ++ agg.2
    let total_fetched := all_jobs.length
    let filtered := roleStage all_jobs
    let total_filtered := filtered.length
    let us_jobs := usStage include_patterns exclude_patterns filtered
    let recent := recencyStage now window_hours us_jobs
    let known_keys := db.jobs.map Prod.fst
    let new_jobs := dedup_jobs recent known_keys
    let total_new := new_jobs.length
    let stored := storeJobs db new_jobs ts
    let entry : RunEntry :=
      { timestamp := ts, fetched := total_fetched, filtered := total_filtered,
        newCount := total_new, succeeded := agg0.succeeded, failed := agg0.failed }
    let history0 := stored.1.run_history ++ [entry]
    let history := if history0.length > 200 then history0.drop (history0.length - 200)
                   else history0
    ({ new_jobs := stored.2, total_fetched := total_fetched,
       total_filtered := total_filtered, total_new := total_new,
       companies_succeeded := agg0.succeeded, companies_failed := agg0.failed,
       errors := errors.take 20 },
     { stored.1 with run_history := history, last_updated := some ts })

/-! ## File write discipline (save_jobs_db versus the atomic write)

save_jobs_db (parallel_ingestor.py lines 92-94) persists the jobs
database with a single Path.write_text call, which opens the target for
writing (truncating it) and then writes the content.  The helper of
scripts/utils/storage_manager.py lines 24-43 (named with a leading
underscore in the source) instead writes a temp file in the same
directory, unlinks the target and renames the temp file over it.  Both
are modelled as traces of filesystem operations, and crash safety as a
predicate over every prefix of a trace. -/

/-- Filesystem operations performed by the two write paths. -/
inductive WriteOp
  | truncateTarget
  | writeTarget (content : String)
  | writeTemp (content : String)
  | unlinkTarget
  | renameTempToTarget
deriving DecidableEq

/-- Contents of the target file and of the temp file. -/
structure FsState where
  target : Option String
  temp : Option String
deriving DecidableEq

/-- Effect of one operation on the filesystem state. -/
def applyOp (s : FsState) : WriteOp → FsState
  | .truncateTarget => { s with target := some "" }
  | .writeTarget c => { s with target := some c }
  | .writeTemp c => { s with temp := some c }
  | .unlinkTarget => { s with target := none }
  | .renameTempToTarget =>
    match s.temp with
    | some c => { target := some c, temp := none }
    | none => s

/-- States reachable after each prefix of a trace: every point at which
a crash could leave the filesystem. -/
def prefixStates (s : FsState) : List WriteOp → List FsState
  | [] => [s]
  | op :: ops => s :: prefixStates (applyOp s op) ops

/-- Trace of save_jobs_db (parallel_ingestor.py lines 92-94) writing
the serialized database: Path.write_text truncates the target in place
and then writes the new content. -/
def save_jobs_db_trace (content : String) : List WriteOp :=
  [.truncateTarget, .writeTarget content]

/-- Trace of the storage manager atomic write helper
(storage_manager.py lines 24-43): write a temp file in the same
directory, unlink the target, rename the temp file onto it. -/
def atomic_write_trace (content : String) : List WriteOp :=
  [.writeTemp content, .unlinkTarget, .renameTempToTarget]

/-- Crash safety of a trace that replaces old by new: after every
prefix, the target file is the complete old content, the complete new
content, or absent; never a half-written or truncated intermediate. -/
def crashSafe (old new : String) (ops : List WriteOp) : Bool :=
  (prefixStates { target := some old, temp := none } ops).all fun s =>
    s.target == some old || s.target == none || s.target == some new

/-! # Theorems -/

/-! ## Claim C1: crash safety of the cycle-end store -/

/-- Claim C1 counterexample: the store at the end of a cycle
(save_jobs_db) writes the target file directly, so the crash point
after the truncating open leaves a truncated (empty) database visible,
which is neither the old nor the new content: the trace is not
crash-safe, and it contains no temp write and no rename at all. -/
theorem C1_counterexample :
    crashSafe "OLDDB" "NEWDB" (save_jobs_db_trace "NEWDB") = false
  ∧ (save_jobs_db_trace "NEWDB").all
      (fun op => decide (op ≠ .writeTemp "NEWDB") && decide (op ≠ .renameTempToTarget)) = true := by
  decide

/-- Claim C1 amended: the temp-write-then-rename discipline exists in
the repository only as the storage manager atomic write helper (used by
store_jobs for the google jobs file, not by save_jobs_db); that
discipline is crash-safe: after every prefix of its trace the target is
the old content, absent, or the new content, never half-written. -/
theorem C1_atomic_write_crash_safe (old new : String) :
    crashSafe old new (atomic_write_trace new) = true := by
  simp [crashSafe, atomic_write_trace, prefixStates, applyOp]

/-! ## Claim C2: retry of transport failures -/

/-- Claim C2 counterexample: a registry source whose fetch suffers a
network failure is not retried and no error is recorded for it.  The
Greenhouse adapter catches the exception and returns the empty list, so
the retry helper sees a successful first attempt: it performs zero
retries and zero backoff sleeps, returns error none, and the gather
loop counts the source as succeeded, not failed. -/
theorem C2_counterexample :
    GreenhouseAdapter.fetch "acme" "Acme" (.netFail "Cannot connect to host") = []
  ∧ fetch_with_retry (fun _ => .ok (fetch_company_jobs 0 "Acme" "greenhouse" "acme"
      (.greenhouse (.netFail "Cannot connect to host"))))
      = (([], none), [])
  ∧ processResults [.ok ("Acme", [], none)]
      = { all_jobs := [], errors := [], succeeded := 1, failed := 0 } := by
  decide

/-- Claim C2 amended: transport failures (network error, non-2xx
status, timeout) and shape failures alike are swallowed inside the ATS
adapter, which returns zero jobs without raising, so the retry loop
always returns after the first attempt with no recorded error; the
retry-with-linear-backoff path (sleeps of RETRY_DELAY * 1 then
RETRY_DELAY * 2, then a recorded per-source error) runs only for an
exception that escapes the adapter on every attempt. -/
theorem C2_adapter_swallows_transport_errors :
    (∀ (slug company : String) (t : Transport (List GreenhouseRawJob)),
        fetch_with_retry (fun _ => .ok (GreenhouseAdapter.fetch slug company t))
          = ((GreenhouseAdapter.fetch slug company t, none), []))
  ∧ (∀ e : Nat → String,
        fetch_with_retry (fun i => .error (e i))
          = (([], some (e 2)), [RETRY_DELAY * 1, RETRY_DELAY * 2])) := by
  exact ⟨fun _ _ _ => rfl, fun _ => rfl⟩

/-! ## Claim C3: dedup key stability -/

/-- First record of the C3 counterexample: trailing space in the
title. -/
def jobA : NormalizedJob :=
  { title := "ml engineer ", company := "acme", location := "remote",
    url := "https://a.example/1", date_posted := .empty,
    source_ats := "greenhouse", job_id := "1" }

/-- Second record of the C3 counterexample: same fields as jobA after
per-field lower-casing and trimming, different url, source and date. -/
def jobB : NormalizedJob :=
  { title := "ml engineer", company := "acme", location := "remote",
    url := "https://b.example/2", date_posted := .other,
    source_ats := "lever", job_id := "2" }

/-- Claim C3 counterexample: jobA and jobB have identical title,
company and location after lower-casing and trimming each field, and
differ only in url, source and date, yet their dedup keys differ: the
source trims only the concatenation as a whole, so the space before the
separator survives into the hash. -/
theorem C3_counterexample :
    pyStrip (pyLower jobA.title) = pyStrip (pyLower jobB.title)
  ∧ pyStrip (pyLower jobA.company) = pyStrip (pyLower jobB.company)
  ∧ pyStrip (pyLower jobA.location) = pyStrip (pyLower jobB.location)
  ∧ jobA.url ≠ jobB.url
  ∧ jobA.source_ats ≠ jobB.source_ats
  ∧ jobA.date_posted ≠ jobB.date_posted
  ∧ jobA.dedup_key ≠ jobB.dedup_key := by
  decide

/-- Claim C3 amended: the dedup key is a content hash of the
concatenation title|company|location lower-cased and whitespace-trimmed
as a whole (not per field); two records whose concatenations agree
after that joint normalization have equal keys, whatever their url,
source, date, first_seen or matched keywords. -/
theorem C3_key_of_joint_normalization
    (t1 c1 l1 u1 s1 i1 f1 t2 c2 l2 u2 s2 i2 f2 : String) (d1 d2 : DateStr)
    (k1 k2 : List String)
    (h : pyStrip (pyLower (t1 ++ "|" ++ c1 ++ "|" ++ l1))
        = pyStrip (pyLower (t2 ++ "|" ++ c2 ++ "|" ++ l2))) :
    NormalizedJob.dedup_key ⟨t1, c1, l1, u1, d1, s1, i1, f1, k1⟩
      = NormalizedJob.dedup_key ⟨t2, c2, l2, u2, d2, s2, i2, f2, k2⟩ :=
  congrArg sha256hex16 h

/-- Witness for the amended claim C3 at concrete records differing in
case and in every non-hashed field. -/
theorem C3_witness :
    pyStrip (pyLower ("ML Engineer" ++ "|" ++ "Acme" ++ "|" ++ "NY"))
      = pyStrip (pyLower ("ml engineer" ++ "|" ++ "acme" ++ "|" ++ "ny"))
  ∧ NormalizedJob.dedup_key ⟨"ML Engineer", "Acme", "NY", "u1", .empty, "greenhouse", "1", "", []⟩
      = NormalizedJob.dedup_key ⟨"ml engineer", "acme", "ny", "u2", .other, "lever", "2", "x", ["SWE"]⟩ :=
  ⟨by decide,
   C3_key_of_joint_normalization "ML Engineer" "Acme" "NY" "u1" "greenhouse" "1" ""
     "ml engineer" "acme" "ny" "u2" "lever" "2" "x" .empty .other [] ["SWE"] (by decide)⟩

/-! ## Dedup engine lemmas -/

/-- The contains test on string lists agrees with membership. -/
theorem contains_true (l : List String) (a : String) : l.contains a = true ↔ a ∈ l :=
  List.elem_iff

/-- Every job kept by the dedup loop comes from the input list. -/
theorem dedupGo_subset {known : List String} {l : List NormalizedJob} {seen : List String}
    {j : NormalizedJob} (h : j ∈ dedupGo known l seen) : j ∈ l := by
  induction l generalizing seen with
  | nil => simp [dedupGo] at h
  | cons a rest ih =>
    simp only [dedupGo] at h
    split at h
    · exact List.mem_cons_of_mem _ (ih h)
    · rcases List.mem_cons.mp h with h1 | h2
      · exact h1 ▸ List.mem_cons_self _ _
      · exact List.mem_cons_of_mem _ (ih h2)

/-- Every job kept by the dedup loop has a key outside the known set
and outside the seen set, and is the first element of the input list
carrying its key (first occurrence wins). -/
theorem dedupGo_invariant {known : List String} {l : List NormalizedJob} {seen : List String}
    {j : NormalizedJob} (h : j ∈ dedupGo known l seen) :
    known.contains j.dedup_key = false
    ∧ seen.contains j.dedup_key = false
    ∧ l.find? (fun x => x.dedup_key == j.dedup_key) = some j := by
  induction l generalizing seen with
  | nil => simp [dedupGo] at h
  | cons a rest ih =>
    simp only [dedupGo] at h
    by_cases hc : (known.contains a.dedup_key || seen.contains a.dedup_key) = true
    · rw [if_pos hc] at h
      obtain ⟨h1, h2, h3⟩ := ih h
      have hne : (a.dedup_key == j.dedup_key) = false := by
        cases hbe : a.dedup_key == j.dedup_key with
        | false => rfl
        | true =>
          rw [eq_of_beq hbe] at hc
          rcases Bool.or_eq_true_iff.mp hc with hx | hx
          · rw [h1] at hx; exact absurd hx (by simp)
          · rw [h2] at hx; exact absurd hx (by simp)
      exact ⟨h1, h2, by rw [List.find?_cons_of_neg _ (by simp [hne])]; exact h3⟩
    · rw [if_neg hc] at h
      have hc' : known.contains a.dedup_key = false ∧ seen.contains a.dedup_key = false :=
        Bool.or_eq_false_iff.mp (Bool.eq_false_iff.mpr hc)
      rcases List.mem_cons.mp h with rfl | h2
      · exact ⟨hc'.1, hc'.2, by rw [List.find?_cons_of_pos _ (by simp)]⟩
      · obtain ⟨h1, h2', h3⟩ := ih h2
        have hsplit : (j.dedup_key == a.dedup_key) = false ∧ seen.contains j.dedup_key = false := by
          rw [List.contains_cons] at h2'
          exact Bool.or_eq_false_iff.mp h2'
        refine ⟨h1, hsplit.2, ?_⟩
        have hne : (a.dedup_key == j.dedup_key) = false := by
          cases hbe : a.dedup_key == j.dedup_key with
          | false => rfl
          | true => rw [eq_of_beq hbe, beq_self_eq_true] at hsplit; exact absurd hsplit.1 (by simp)
        rw [List.find?_cons_of_neg _ (by simp [hne])]
        exact h3

/-- When every key of the input list is already known, the dedup loop
returns nothing. -/
theorem dedupGo_nil {known : List String} {l : List NormalizedJob}
    (h : ∀ j ∈ l, known.contains j.dedup_key = true) :
    ∀ seen, dedupGo known l seen = [] := by
  induction l with
  | nil => intro seen; rfl
  | cons a rest ih =>
    intro seen
    simp only [dedupGo]
    rw [if_pos (by rw [h a (List.mem_cons_self a rest)]; rfl)]
    exact ih (fun j hj => h j (List.mem_cons_of_mem a hj)) seen

/-- Every key of the input list is known, seen, or among the keys the
dedup loop keeps. -/
theorem dedupGo_covers {known : List String} {l : List NormalizedJob} :
    ∀ {seen : List String} {j : NormalizedJob}, j ∈ l →
      known.contains j.dedup_key = true
      ∨ seen.contains j.dedup_key = true
      ∨ j.dedup_key ∈ (dedupGo known l seen).map NormalizedJob.dedup_key := by
  induction l with
  | nil => intro seen j h; simp at h
  | cons a rest ih =>
    intro seen j hj
    simp only [dedupGo]
    by_cases hc : (known.contains a.dedup_key || seen.contains a.dedup_key) = true
    · rw [if_pos hc]
      rcases List.mem_cons.mp hj with rfl | h2
      · rcases Bool.or_eq_true_iff.mp hc with h | h
        · exact Or.inl h
        · exact Or.inr (Or.inl h)
      · exact ih h2
    · rw [if_neg hc]
      rcases List.mem_cons.mp hj with rfl | h2
      · exact Or.inr (Or.inr (by simp))
      · rcases @ih (a.dedup_key :: seen) j h2 with h | h | h
        · exact Or.inl h
        · rw [List.contains_cons] at h
          rcases Bool.or_eq_true_iff.mp h with h | h
          · exact Or.inr (Or.inr (by simp [eq_of_beq h]))
          · exact Or.inr (Or.inl h)
        · exact Or.inr (Or.inr (by simp only [List.map_cons]; exact List.mem_cons_of_mem _ h))

/-- Stamping first_seen leaves the dedup key unchanged. -/
theorem dedup_key_stamp (j : NormalizedJob) (ts : String) :
    ({ j with first_seen := ts } : NormalizedJob).dedup_key = j.dedup_key := rfl

/-- Keys present before a dict assignment are present after it. -/
theorem keys_setKey_old {m : List (String × NormalizedJob)} {k' : String} {v : NormalizedJob}
    {k : String} (h : k ∈ m.map Prod.fst) : k ∈ (setKey m k' v).map Prod.fst := by
  unfold setKey
  split
  · obtain ⟨p, hp, rfl⟩ := List.mem_map.mp h
    refine List.mem_map.mpr ⟨if p.1 == k' then (k', v) else p, List.mem_map.mpr ⟨p, hp, rfl⟩, ?_⟩
    by_cases hb : (p.1 == k') = true
    · simp [hb, (eq_of_beq hb).symm]
    · simp [hb]
  · simp only [List.map_append, List.mem_append]
    exact Or.inl h

/-- The assigned key is present after a dict assignment. -/
theorem keys_setKey_self {m : List (String × NormalizedJob)} {k' : String} {v : NormalizedJob} :
    k' ∈ (setKey m k' v).map Prod.fst := by
  unfold setKey
  split
  · next hany =>
    obtain ⟨p, hp, hpk⟩ := List.any_eq_true.mp hany
    exact List.mem_map.mpr ⟨(k', v), List.mem_map.mpr ⟨p, hp, by simp [hpk]⟩, rfl⟩
  · simp

/-- Keys after folding dict assignments over a job list: all previous
keys and all assigned keys are present. -/
theorem keys_foldl_setKey (jobs : List NormalizedJob) (m : List (String × NormalizedJob))
    (k : String) (h : k ∈ m.map Prod.fst ∨ k ∈ jobs.map NormalizedJob.dedup_key) :
    k ∈ (jobs.foldl (fun m j => setKey m j.dedup_key j) m).map Prod.fst := by
  induction jobs generalizing m with
  | nil => simpa using h
  | cons a rest ih =>
    simp only [List.foldl_cons]
    apply ih
    rcases h with h | h
    · exact Or.inl (keys_setKey_old h)
    · simp only [List.map_cons, List.mem_cons] at h
      rcases h with rfl | h
      · exact Or.inl keys_setKey_self
      · exact Or.inr h

/-! ## Claim C4: dedup idempotence -/

/-- Claim C4: running a candidate list through dedup against the
database keys and persisting the accepted records makes a second run of
the same list yield zero new records; and within one batch the accepted
records are exactly first occurrences: every accepted record is what a
first-match scan of the input finds for its key. -/
theorem C4_dedup_idempotent (recent : List NormalizedJob) (db : JobsDB) (ts : String) :
    dedup_jobs recent
        ((storeJobs db (dedup_jobs recent (db.jobs.map Prod.fst)) ts).1.jobs.map Prod.fst) = []
  ∧ ∀ j ∈ dedup_jobs recent (db.jobs.map Prod.fst),
      recent.find? (fun x => x.dedup_key == j.dedup_key) = some j := by
  constructor
  · apply dedupGo_nil (fun j hj => ?_) []
    have hcov := @dedupGo_covers (db.jobs.map Prod.fst) recent [] j hj
    apply (contains_true _ _).mpr
    show j.dedup_key ∈ ((storeJobs db (dedup_jobs recent (db.jobs.map Prod.fst)) ts).1).jobs.map Prod.fst
    unfold storeJobs
    apply keys_foldl_setKey
    rcases hcov with h | h | h
    · exact Or.inl ((contains_true _ _).mp h)
    · exact absurd h (by simp)
    · refine Or.inr ?_
      have : ((dedup_jobs recent (db.jobs.map Prod.fst)).map
          (fun j => { j with first_seen := ts })).map NormalizedJob.dedup_key
          = (dedup_jobs recent (db.jobs.map Prod.fst)).map NormalizedJob.dedup_key := by
        rw [List.map_map]; rfl
      rw [this]
      exact h
  · intro j hj
    exact (dedupGo_invariant hj).2.2

/-- Job record used by the concrete witnesses. -/
def jobW : NormalizedJob :=
  { title := "software engineer", company := "Acme", location := "Austin, TX",
    url := "", date_posted := .empty, source_ats := "greenhouse", job_id := "1" }

/-- Empty jobs database used by the concrete witnesses. -/
def dbEmpty : JobsDB := {}

/-- Witness for claim C4 at a concrete one-job batch over the empty
database. -/
theorem C4_witness :
    dedup_jobs [jobW]
        ((storeJobs dbEmpty (dedup_jobs [jobW] (dbEmpty.jobs.map Prod.fst)) "t").1.jobs.map Prod.fst) = []
  ∧ [jobW].find? (fun x => x.dedup_key == jobW.dedup_key) = some jobW :=
  ⟨(C4_dedup_idempotent [jobW] dbEmpty "t").1,
   (C4_dedup_idempotent [jobW] dbEmpty "t").2 jobW
     (show jobW ∈ dedup_jobs [jobW] (dbEmpty.jobs.map Prod.fst) from
       (show dedup_jobs [jobW] (dbEmpty.jobs.map Prod.fst) = [jobW] from rfl) ▸
         List.mem_cons_self _ _)⟩

/-! ## Claim C7: first_seen assigned exactly once -/

/-- A dict assignment under a key different from k does not change the
lookup of k. -/
theorem find_map_overwrite (m : List (String × NormalizedJob)) (k k' : String)
    (v : NormalizedJob) (h : k ≠ k') :
    (m.map (fun p => if p.1 == k' then (k', v) else p)).find? (fun p => p.1 == k)
      = m.find? (fun p => p.1 == k) := by
  induction m with
  | nil => rfl
  | cons p rest ih =>
    simp only [List.map_cons]
    by_cases hb : (p.1 == k') = true
    · have h1 : ((k' : String) == k) = false :=
        beq_eq_false_iff_ne.mpr fun he => h he.symm
      have h2 : (p.1 == k) = false :=
        beq_eq_false_iff_ne.mpr (by rw [eq_of_beq hb]; exact fun he => h he.symm)
      rw [if_pos hb]
      simp only [List.find?_cons, h1, h2]
      exact ih
    · rw [if_neg hb]
      simp only [List.find?_cons]
      cases hpk : (p.1 == k) with
      | true => simp only [hpk]
      | false => simp only [hpk]; exact ih

/-- Appending an entry under a key different from k does not change the
lookup of k. -/
theorem find_append_single (m : List (String × NormalizedJob)) (k k' : String)
    (v : NormalizedJob) (h : k ≠ k') :
    (m ++ [(k', v)]).find? (fun p => p.1 == k) = m.find? (fun p => p.1 == k) := by
  rw [List.find?_append]
  have h1 : ((k' : String) == k) = false := beq_eq_false_iff_ne.mpr fun he => h he.symm
  have hnone : ([((k', v) : String × NormalizedJob)].find? (fun p => p.1 == k)) = none := by
    simp only [List.find?_cons, h1]
    rfl
  rw [hnone]
  cases m.find? (fun p => p.1 == k) <;> rfl

/-- A dict assignment under a key different from k preserves the
lookup of k. -/
theorem lookupKey_setKey_ne {m : List (String × NormalizedJob)} {k k' : String}
    {v : NormalizedJob} (h : k ≠ k') : lookupKey (setKey m k' v) k = lookupKey m k := by
  unfold setKey lookupKey
  split
  · exact find_map_overwrite m k k' v h
  · exact find_append_single m k k' v h

/-- Folding dict assignments whose keys all differ from k preserves the
lookup of k. -/
theorem lookupKey_foldl_setKey (jobs : List NormalizedJob)
    (m : List (String × NormalizedJob)) (k : String)
    (h : ∀ j ∈ jobs, j.dedup_key ≠ k) :
    lookupKey (jobs.foldl (fun m j => setKey m j.dedup_key j) m) k = lookupKey m k := by
  induction jobs generalizing m with
  | nil => rfl
  | cons a rest ih =>
    simp only [List.foldl_cons]
    rw [ih _ (fun j hj => h j (List.mem_cons_of_mem a hj))]
    exact lookupKey_setKey_ne (fun he => h a (List.mem_cons_self a rest) he.symm)

/-- Claim C7: a cycle leaves every record already stored in the
database, including its first_seen value, unchanged: storing the
deduplicated batch does not touch any key already present, because
dedup removes every job whose key is known. -/
theorem C7_first_seen_immutable (db : JobsDB) (recent : List NormalizedJob) (ts : String)
    (k : String) (hk : k ∈ db.jobs.map Prod.fst) :
    lookupKey ((storeJobs db (dedup_jobs recent (db.jobs.map Prod.fst)) ts).1).jobs k
      = lookupKey db.jobs k := by
  unfold storeJobs
  apply lookupKey_foldl_setKey
  intro j hj
  obtain ⟨j0, hj0, rfl⟩ := List.mem_map.mp hj
  have hinv := (dedupGo_invariant hj0).1
  rw [dedup_key_stamp]
  intro he
  rw [(contains_true _ _).mpr (he ▸ hk)] at hinv
  exact absurd hinv (by simp)

/-- Database with one stored job, used by the C7 witness. -/
def dbW : JobsDB := { jobs := [("k1", jobW)] }

/-- Witness for claim C7: a cycle storing an empty batch over a
database holding one record leaves that record unchanged. -/
theorem C7_witness :
    lookupKey ((storeJobs dbW (dedup_jobs [] (dbW.jobs.map Prod.fst)) "t2").1).jobs "k1"
      = lookupKey dbW.jobs "k1" :=
  C7_first_seen_immutable dbW [] "t2" "k1" (by decide)

/-! ## Claim C5: recency boundary -/

/-- Claim C5: a date parsing to exactly the window cutoff is included
(inclusive boundary) in ISO, Unix-seconds and N-days-ago form; a
parseable date older than the cutoff by any margin is excluded; an
unparseable date (empty string, or a string no branch of the cascade
accepts) is always included. -/
theorem C5_recency_boundary (now wh : Int) :
    (is_within_window .empty now wh = true)
  ∧ (is_within_window .other now wh = true)
  ∧ (is_within_window (.iso (now - wh * 3600)) now wh = true)
  ∧ (∀ t : Int, t < now - wh * 3600 → is_within_window (.iso t) now wh = false)
  ∧ (fromtimestampOk (now - wh * 3600) = true → now - wh * 3600 ≤ 1000000000000 →
      is_within_window (.unix (now - wh * 3600)) now wh = true)
  ∧ (∀ x : Int, x ≤ 1000000000000 → fromtimestampOk x = true →
      x < now - wh * 3600 → is_within_window (.unix x) now wh = false)
  ∧ (∀ n : Nat, (n : Int) * 24 = wh → is_within_window (.daysAgo n) now wh = true)
  ∧ (∀ n : Nat, (n : Int) * 24 > wh → is_within_window (.daysAgo n) now wh = false) := by
  refine ⟨rfl, rfl, ?_, ?_, ?_, ?_, ?_, ?_⟩
  · simp [is_within_window]
  · intro t ht; simp [is_within_window]; omega
  · intro hok hle
    have h1 : ¬ (now - wh * 3600 > 1000000000000) := by omega
    simp [is_within_window, h1, hok]
  · intro x hle hok hlt
    have h1 : ¬ (x > 1000000000000) := by omega
    simp [is_within_window, h1, hok]
    omega
  · intro n hn; simp [is_within_window]; omega
  · intro n hn; simp [is_within_window]; omega

/-- Witness for claim C5 at a concrete clock and window. -/
theorem C5_witness :
    is_within_window (.iso (2000000 - 24 * 3600)) 2000000 24 = true
  ∧ is_within_window (.iso 1000) 2000000 24 = false
  ∧ is_within_window (.unix 1000) 2000000 24 = false
  ∧ is_within_window (.daysAgo 1) 2000000 24 = true
  ∧ is_within_window (.daysAgo 2) 2000000 24 = false :=
  ⟨(C5_recency_boundary 2000000 24).2.2.1,
   (C5_recency_boundary 2000000 24).2.2.2.1 1000 (by decide),
   (C5_recency_boundary 2000000 24).2.2.2.2.2.1 1000 (by decide) (by decide) (by decide),
   (C5_recency_boundary 2000000 24).2.2.2.2.2.2.1 1 (by decide),
   (C5_recency_boundary 2000000 24).2.2.2.2.2.2.2 2 (by decide)⟩

/-! ## Role filter and pipeline lemmas -/

set_option maxRecDepth 4096 in
/-- No keyword of the table matches the empty title. -/
theorem kw_nonmatch_empty : ∀ p ∈ ROLE_KEYWORDS, kwMatches p.1 "" = false := by decide

/-- Inversion of the role stage: every kept job is an input job whose
title has a non-empty match list, with the matches recorded on it. -/
theorem roleStage_mem {jobs : List NormalizedJob} {j : NormalizedJob}
    (h : j ∈ roleStage jobs) :
    ∃ a ∈ jobs, (matches_target_role a.title).isEmpty = false
      ∧ j = { a with keywords_matched := matches_target_role a.title } := by
  simp only [roleStage, List.mem_filterMap] at h
  obtain ⟨a, ha, hsome⟩ := h
  by_cases hm : (matches_target_role a.title).isEmpty = true
  · rw [if_pos hm] at hsome
    exact absurd hsome (by simp)
  · rw [if_neg hm] at hsome
    exact ⟨a, ha, Bool.eq_false_iff.mpr hm, (Option.some_inj.mp hsome).symm⟩

/-- Identity of a job up to the fields the pipeline mutates: coreOf
clears first_seen and keywords_matched, which are the only fields the
role stage and the store step write. -/
def coreOf (j : NormalizedJob) : NormalizedJob :=
  { j with first_seen := "", keywords_matched := [] }

/-- The new_jobs field of a cycle run over a non-empty registry is the
deduplicated, stamped output of the three filter stages. -/
theorem run_cycle_new_jobs (results : List RegistryResult)
    (board agg : List NormalizedJob × List String) (inc exc : List String)
    (db : JobsDB) (now wh : Int) (ts : String) (h : results ≠ []) :
    (run_cycle results board agg inc exc db now wh ts).1.new_jobs
      = (dedup_jobs (recencyStage now wh (usStage inc exc (roleStage
          ((processResults results).all_jobs ++ board.1 ++ agg.1))))
          (db.jobs.map Prod.fst)).map (fun j => { j with first_seen := ts }) := by
  cases results with
  | nil => exact absurd rfl h
  | cons r rs => rfl

/-- Every job of the cycle result arises from a fetched candidate with
the same core fields and a matching title. -/
theorem new_jobs_core {results : List RegistryResult}
    {board agg : List NormalizedJob × List String} {inc exc : List String}
    {db : JobsDB} {now wh : Int} {ts : String} {j : NormalizedJob}
    (h : results ≠ [])
    (hj : j ∈ (run_cycle results board agg inc exc db now wh ts).1.new_jobs) :
    ∃ a ∈ (processResults results).all_jobs ++ board.1 ++ agg.1,
      coreOf j = coreOf a ∧ (matches_target_role a.title).isEmpty = false := by
  rw [run_cycle_new_jobs results board agg inc exc db now wh ts h] at hj
  obtain ⟨j1, hj1, rfl⟩ := List.mem_map.mp hj
  have hj2 : j1 ∈ recencyStage now wh (usStage inc exc (roleStage
      ((processResults results).all_jobs ++ board.1 ++ agg.1))) := dedupGo_subset hj1
  have hj3 := (List.mem_filter.mp hj2).1
  have hj4 := (List.mem_filter.mp hj3).1
  obtain ⟨a, ha, hne, rfl⟩ := roleStage_mem hj4
  exact ⟨a, ha, rfl, hne⟩

/-! ## Claim C6: role filter totality -/

/-- Claim C6: membership in the match result is exactly having a
keyword of the table occur case-insensitively in the title; any title
containing some keyword gets a non-empty result containing that
keyword category; any title containing no keyword is excluded from the
pipeline by the role stage. -/
theorem C6_role_filter_totality (title : String) :
    (∀ c, c ∈ matches_target_role title ↔
        ∃ p ∈ ROLE_KEYWORDS, p.2 = c ∧ kwMatches p.1 title = true)
  ∧ (∀ p ∈ ROLE_KEYWORDS, kwMatches p.1 title = true →
        matches_target_role title ≠ [] ∧ p.2 ∈ matches_target_role title)
  ∧ ((∀ p ∈ ROLE_KEYWORDS, kwMatches p.1 title = false) →
        ∀ (jobs : List NormalizedJob) (j : NormalizedJob),
          j ∈ roleStage jobs → j.title ≠ title) := by
  have hiff : ∀ c, c ∈ matches_target_role title ↔
      ∃ p ∈ ROLE_KEYWORDS, p.2 = c ∧ kwMatches p.1 title = true := by
    intro c
    by_cases ht : title = ""
    · subst ht
      constructor
      · intro hc
        rw [show matches_target_role "" = [] from rfl] at hc
        exact absurd hc (List.not_mem_nil c)
      · rintro ⟨p, hp, hc, hm⟩
        rw [kw_nonmatch_empty p hp] at hm
        exact absurd hm (by simp)
    · rw [matches_target_role, if_neg ht]
      constructor
      · intro hc
        rw [List.mem_dedup] at hc
        obtain ⟨p, hp, rfl⟩ := List.mem_map.mp hc
        have hf := List.mem_filter.mp hp
        exact ⟨p, hf.1, rfl, hf.2⟩
      · rintro ⟨p, hp, rfl, hm⟩
        rw [List.mem_dedup]
        exact List.mem_map.mpr ⟨p, List.mem_filter.mpr ⟨hp, hm⟩, rfl⟩
  refine ⟨hiff, ?_, ?_⟩
  · intro p hp hm
    have hc : p.2 ∈ matches_target_role title := (hiff p.2).mpr ⟨p, hp, rfl, hm⟩
    exact ⟨List.ne_nil_of_mem hc, hc⟩
  · intro hnone jobs j hj htitle
    obtain ⟨a, _, hne, rfl⟩ := roleStage_mem hj
    have h1 : a.title = title := htitle
    rw [h1] at hne
    have h2 : matches_target_role title ≠ [] := List.isEmpty_eq_false.mp hne
    obtain ⟨c, hc⟩ := List.exists_mem_of_ne_nil _ h2
    obtain ⟨p, hp, _, hm⟩ := (hiff c).mp hc
    rw [hnone p hp] at hm
    exact absurd hm (by simp)

/-- Witness for claim C6 at a concrete title containing the keyword
ml engineer in different letter case. -/
theorem C6_witness :
    ("ml engineer", "AI/ML") ∈ ROLE_KEYWORDS
  ∧ kwMatches "ml engineer" "Senior ML Engineer" = true
  ∧ matches_target_role "Senior ML Engineer" ≠ []
  ∧ "AI/ML" ∈ matches_target_role "Senior ML Engineer" :=
  ⟨by decide, by decide,
   ((C6_role_filter_totality "Senior ML Engineer").2.1 ("ml engineer", "AI/ML")
     (by decide) (by decide)).1,
   ((C6_role_filter_totality "Senior ML Engineer").2.1 ("ml engineer", "AI/ML")
     (by decide) (by decide)).2⟩

/-! ## Claim C9: empty titles never pass the role stage -/

/-- Claim C9: the role filter returns the empty category list for the
empty title, and consequently no job whose title is the empty string
ever appears among the new records of a cycle (so it reaches neither
the geography, recency nor dedup stage output). -/
theorem C9_empty_title_excluded :
    matches_target_role "" = []
  ∧ ∀ (results : List RegistryResult) (board agg : List NormalizedJob × List String)
      (inc exc : List String) (db : JobsDB) (now wh : Int) (ts : String)
      (j : NormalizedJob),
      j ∈ (run_cycle results board agg inc exc db now wh ts).1.new_jobs → j.title ≠ "" := by
  refine ⟨rfl, ?_⟩
  intro results board agg inc exc db now wh ts j hj
  by_cases h : results = []
  · subst h
    simp [run_cycle] at hj
  · obtain ⟨a, _, hcore, hne⟩ := new_jobs_core h hj
    intro htitle
    have h3 := congrArg NormalizedJob.title hcore
    have h2 : a.title = "" := ((h3.symm : a.title = j.title)).trans htitle
    rw [h2] at hne
    simp [matches_target_role] at hne

/-- Witness for claim C9 at a concrete one-source cycle whose single
job flows through all stages. -/
theorem C9_witness :
    ({ jobW with first_seen := "t", keywords_matched := ["SWE"] } : NormalizedJob).title ≠ "" :=
  C9_empty_title_excluded.2 [Except.ok ("Acme", [jobW], none)] ([], []) ([], []) [] []
    dbEmpty 0 24 "t" { jobW with first_seen := "t", keywords_matched := ["SWE"] }
    (by decide)

/-! ## Claim C8: the Lever 24 hour cap -/

/-- Inversion of the Lever fetch on a successful response: every
produced job is the normalization of a posting that passed the fixed
24 hour check. -/
theorem leverFetch_mem {company : String} {now : Int} {postings : List LeverRawJob}
    {j : NormalizedJob}
    (h : j ∈ LeverAdapter.fetch company now (.ok 200 (.ok postings))) :
    ∃ q ∈ postings, is_within_24h q.createdAt now = true
      ∧ j = LeverAdapter.normalize company q := by
  simp only [LeverAdapter.fetch] at h
  rw [if_neg (fun hx => hx rfl)] at h
  obtain ⟨q, hq, hsome⟩ := List.mem_filterMap.mp h
  by_cases hw : is_within_24h q.createdAt now = true
  · rw [if_pos hw] at hsome
    exact ⟨q, hq, hw, (Option.some_inj.mp hsome).symm⟩
  · rw [if_neg hw] at hsome
    exact absurd hsome (by simp)

/-- Claim C8: a Lever posting whose createdAt timestamp (milliseconds,
in the range fromtimestamp accepts) is more than 24 hours old at fetch
time fails the fixed 24 hour check, and for every window size given to
the cycle entry point, no record with the core fields of that posting
appears among the new records of a cycle fetching that Lever source. -/
theorem C8_lever_24h_cap (company : String) (now : Int) (postings : List LeverRawJob)
    (p : LeverRawJob) (hp : p ∈ postings)
    (hall : ∀ q ∈ postings, 1000000000000 < q.createdAt
        ∧ fromtimestampOk (q.createdAt / 1000) = true)
    (hold : p.createdAt / 1000 < now - 86400) :
    is_within_24h p.createdAt now = false
  ∧ ∀ (wh : Int) (inc exc : List String) (db : JobsDB) (ts : String) (j : NormalizedJob),
      j ∈ (run_cycle
            [Except.ok (company, LeverAdapter.fetch company now (.ok 200 (.ok postings)), none)]
            ([], []) ([], []) inc exc db now wh ts).1.new_jobs →
      coreOf j ≠ coreOf (LeverAdapter.normalize company p) := by
  obtain ⟨hpgt, hpok⟩ := hall p hp
  have hp0 : ¬ p.createdAt = 0 := by omega
  have hnle : ¬ (now - 86400 ≤ p.createdAt / 1000) := not_le.mpr hold
  refine ⟨by simp [is_within_24h, hp0, hpgt, hpok, hnle], ?_⟩
  intro wh inc exc db ts j hj hcore
  have hne : ([Except.ok (company,
      LeverAdapter.fetch company now (.ok 200 (.ok postings)), none)] :
      List RegistryResult) ≠ [] := List.cons_ne_nil _ _
  obtain ⟨a, ha, hac, _⟩ := new_jobs_core hne hj
  have ha' : a ∈ LeverAdapter.fetch company now (.ok 200 (.ok postings)) := by
    simpa [processResults] using ha
  obtain ⟨q, hq, hw24, rfl⟩ := leverFetch_mem ha'
  obtain ⟨hqgt, hqok⟩ := hall q hq
  have hq0 : ¬ q.createdAt = 0 := by omega
  have hqc : coreOf (LeverAdapter.normalize company q)
      = coreOf (LeverAdapter.normalize company p) := hac.symm.trans hcore
  have hdate := congrArg NormalizedJob.date_posted hqc
  simp [coreOf, LeverAdapter.normalize, hq0, hp0] at hdate
  simp [is_within_24h, hq0, hqgt, hqok] at hw24
  rw [hdate] at hw24
  linarith

/-- Lever posting used by the C8 witness: a millisecond timestamp of
year 2004 seen from a clock of year 2008. -/
def leverOldPosting : LeverRawJob :=
  { text := "ml engineer", createdAt := 1100000000000, location := "NY",
    hostedUrl := "u", id := "1" }

/-- Witness for claim C8 at the concrete old posting. -/
theorem C8_witness : is_within_24h 1100000000000 1200000000 = false :=
  (C8_lever_24h_cap "Acme" 1200000000 [leverOldPosting] leverOldPosting
    (by decide) (by decide) (by decide)).1

/-! ## Claim C10: counts reflect registry sources only -/

/-- Claim C10: the failed and succeeded counts of a cycle result are
exactly the counts of the registry fetch outcomes, whatever the job
board and aggregator stages return; board and aggregator errors are
appended to the error list after the per-source errors and the whole
list is truncated to at most 20 entries. -/
theorem C10_counts_registry_only (results : List RegistryResult)
    (board agg : List NormalizedJob × List String) (inc exc : List String)
    (db : JobsDB) (now wh : Int) (ts : String) (h : results ≠ []) :
    (run_cycle results board agg inc exc db now wh ts).1.companies_failed
        = (processResults results).failed
  ∧ (run_cycle results board agg inc exc db now wh ts).1.companies_succeeded
        = (processResults results).succeeded
  ∧ (run_cycle results board agg inc exc db now wh ts).1.errors
        = ((processResults results).errors ++ board.2 ++ agg.2).take 20
  ∧ (run_cycle results board agg inc exc db now wh ts).1.errors.length ≤ 20 := by
  cases results with
  | nil => exact absurd rfl h
  | cons r rs =>
    refine ⟨rfl, rfl, rfl, ?_⟩
    show ((((processResults (r :: rs)).errors ++ board.2 ++ agg.2).take 20)).length ≤ 20
    rw [List.length_take]
    exact Nat.min_le_left _ _

/-- Witness for claim C10 at one failing registry source with a board
error and an aggregator error alongside. -/
theorem C10_witness :
    (run_cycle [Except.error "boom"] ([], ["board down"]) ([], ["agg down"]) [] []
        dbEmpty 0 24 "t").1.companies_failed
      = (processResults [Except.error "boom"]).failed
  ∧ (run_cycle [Except.error "boom"] ([], ["board down"]) ([], ["agg down"]) [] []
        dbEmpty 0 24 "t").1.companies_succeeded
      = (processResults [Except.error "boom"]).succeeded
  ∧ (run_cycle [Except.error "boom"] ([], ["board down"]) ([], ["agg down"]) [] []
        dbEmpty 0 24 "t").1.errors
      = ((processResults [Except.error "boom"]).errors ++ ["board down"] ++ ["agg down"]).take 20
  ∧ (run_cycle [Except.error "boom"] ([], ["board down"]) ([], ["agg down"]) [] []
        dbEmpty 0 24 "t").1.errors.length ≤ 20 :=
  C10_counts_registry_only [Except.error "boom"] ([], ["board down"]) ([], ["agg down"])
    [] [] dbEmpty 0 24 "t" (List.cons_ne_nil _ _)

end JobClaw
